import Mathlib

/-!
Verification of the set-transformer layer library (`layers.py`): a shallow
embedding of `LinearNet`, `Attention`, `MAB`, `PMA`, `ISAB` and `IPAB`.

Two complementary embeddings are used.

* A value-level embedding over an abstract tensor type `T`, in which the
  externally supplied sub-modules (multihead attention, layer norm, dropout,
  the affine layers) are abstract functions.  It captures the exact wiring
  (composition order) of each forward pass.

* A shape-level embedding, in which a tensor is represented by its shape, a
  `List ℕ` of dimension sizes, and every operation is a function
  `Shape → Except ShapeErr Shape` following the documented shape rules of the
  external tensor framework (`nn.MultiheadAttention` requires query/key/value
  to be all batched (3-D) or all unbatched (2-D) with matching embedding and
  source dimensions; `nn.LayerNorm d` requires the trailing dimension to be
  `d`; `nn.Linear i o` maps trailing dimension `i` to `o`; elementwise add
  broadcasts; dropout and leaky-relu preserve shapes).  It captures the shape
  guarantees and shape errors of the forward passes.

Construction-time behaviour of `MAB.__init__` (the divisibility assertion and
the `[embed_dim] + ff_layers + [embed_dim]` width concatenation, which raises
a `TypeError` when `ff_layers` is left at its default `None`) is modelled by
`mabInit`.
-/

/-- A tensor shape: the list of dimension sizes, leading dimension first. -/
abbrev Shape := List ℕ

/-- Errors surfaced by the external tensor runtime at the shape level. -/
inductive ShapeErr where
  /-- query/key/value to multihead attention are not all batched (3-D) nor
  all unbatched (2-D). -/
  | batching
  /-- dimension sizes fed to multihead attention do not match. -/
  | mismatch
  /-- trailing dimension does not match a `LayerNorm`'s normalized shape. -/
  | norm
  /-- trailing dimension does not match a `Linear`'s input width. -/
  | linearIn
  /-- invalid dimension index (e.g. `size(0)`/`squeeze` on too few dims). -/
  | dim
  /-- incompatible sizes in elementwise broadcasting. -/
  | broadcastFail
  deriving DecidableEq, Repr

/-- Errors raised while running `MAB.__init__` (Python semantics). -/
inductive InitErr where
  /-- `embed_dim % num_heads` with `num_heads = 0` raises `ZeroDivisionError`. -/
  | zeroDivision
  /-- the `assert embed_dim % num_heads == 0` fails (`AssertionError`). -/
  | assertionError
  /-- `[embed_dim] + ff_layers` with `ff_layers = None` raises `TypeError`. -/
  | typeError
  deriving DecidableEq, Repr

/-- `MAB.__init__(embed_dim, num_heads, ff_layers, ...)`, source lines 43-53.
Python evaluates `embed_dim % num_heads` (raising `ZeroDivisionError` when
`num_heads = 0`), asserts the remainder is zero, and then builds the
feed-forward width list `[embed_dim] + ff_layers + [embed_dim]`, which raises
`TypeError` when `ff_layers` is `None` (its default).  On success the result
is that width list, which parameterizes the `LinearNet` sub-module. -/
def mabInit (embed_dim num_heads : ℕ) (ff_layers : Option (List ℕ)) :
    Except InitErr (List ℕ) :=
  if num_heads = 0 then .error .zeroDivision
  else if embed_dim % num_heads = 0 then
    match ff_layers with
    | none => .error .typeError
    | some ff => .ok ([embed_dim] ++ ff ++ [embed_dim])
  else .error .assertionError

/-- Shape rule of `nn.MultiheadAttention(embed_dim, num_heads, batch_first=True)`
applied as `attention(q, k, v)`: the inputs must be all 3-D (batched) or all
2-D (unbatched); all trailing dimensions must equal `embed_dim`; batched
inputs must share the batch size; key and value must share the source length.
The output has the query's shape. -/
def mhaOutShape (embed_dim : ℕ) (q k v : Shape) : Except ShapeErr Shape :=
  if q.length = 3 ∧ k.length = 3 ∧ v.length = 3 then
    if q.getLast? = some embed_dim ∧ k.getLast? = some embed_dim ∧
        v.getLast? = some embed_dim ∧ q.head? = k.head? ∧ k.head? = v.head? ∧
        (k.drop 1).head? = (v.drop 1).head? then
      .ok q
    else .error .mismatch
  else if q.length = 2 ∧ k.length = 2 ∧ v.length = 2 then
    if q.getLast? = some embed_dim ∧ k.getLast? = some embed_dim ∧
        v.getLast? = some embed_dim ∧ k.head? = v.head? then
      .ok q
    else .error .mismatch
  else .error .batching

/-- Elementwise broadcasting of two reversed shapes (trailing dims first):
equal sizes are kept, a size of 1 stretches to the other side's size. -/
def bcRev : List ℕ → List ℕ → Except ShapeErr (List ℕ)
  | [], ys => .ok ys
  | x :: xs, [] => .ok (x :: xs)
  | x :: xs, y :: ys =>
    match bcRev xs ys with
    | .error e => .error e
    | .ok rest =>
      if x = y then .ok (x :: rest)
      else if x = 1 then .ok (y :: rest)
      else if y = 1 then .ok (x :: rest)
      else .error .broadcastFail

/-- Shape of the elementwise sum `a + b` under the framework's broadcasting. -/
def broadcastShapes (a b : Shape) : Except ShapeErr Shape :=
  match bcRev a.reverse b.reverse with
  | .error e => .error e
  | .ok r => .ok r.reverse

/-- Shape rule of `nn.LayerNorm(embed_dim)`: the trailing dimension must be
`embed_dim`; the shape is preserved. -/
def layerNormShape (embed_dim : ℕ) (s : Shape) : Except ShapeErr Shape :=
  if s.getLast? = some embed_dim then .ok s else .error .norm

/-- `nn.Dropout` preserves the shape. -/
def dropoutShape (s : Shape) : Shape := s

/-- Shape rule of `nn.Linear(inF, outF)`: the trailing dimension must be
`inF` and becomes `outF`. -/
def linearShape (inF outF : ℕ) (s : Shape) : Except ShapeErr Shape :=
  match s.getLast? with
  | some d => if d = inF then .ok (s.dropLast ++ [outF]) else .error .linearIn
  | none => .error .linearIn

/-- Shape behaviour of `LinearNet.forward` for a width list `ws`: one
`nn.Linear` per consecutive width pair (`LinearNet.__init__`, lines 14-18);
the interleaved leaky-relu and dropout preserve shapes. -/
def linearNetShape : List ℕ → Shape → Except ShapeErr Shape
  | w1 :: w2 :: rest, s =>
    match linearShape w1 w2 s with
    | .error e => .error e
    | .ok t => linearNetShape (w2 :: rest) t
  | _, s => .ok s

/-- Shape behaviour of `MAB.forward(X, Y)` (source lines 55-69) for a module
built with `embed_dim`, feed-forward widths `[embed_dim] ++ ff ++ [embed_dim]`
and `layer_norm` flag `ln`: attention with query `x`, key/value `y`; residual
add; optional layer norm; dropout; feed-forward; residual add; optional layer
norm; dropout. -/
def mabShapeForward (embed_dim : ℕ) (ff : List ℕ) (ln : Bool) (x y : Shape) :
    Except ShapeErr Shape :=
  match mhaOutShape embed_dim x y y with
  | .error e => .error e
  | .ok a =>
  match broadcastShapes x a with
  | .error e => .error e
  | .ok h0 =>
  match (if ln then layerNormShape embed_dim h0 else .ok h0) with
  | .error e => .error e
  | .ok h1 =>
  match linearNetShape ([embed_dim] ++ ff ++ [embed_dim]) (dropoutShape h1) with
  | .error e => .error e
  | .ok f =>
  match broadcastShapes (dropoutShape h1) f with
  | .error e => .error e
  | .ok o0 =>
  match (if ln then layerNormShape embed_dim o0 else .ok o0) with
  | .error e => .error e
  | .ok o1 => .ok (dropoutShape o1)

/-- Shape behaviour of `PMA.forward(X)` (source lines 80-81): the seed
parameter `S` of shape `(1, seed_count, embed_dim)` is repeated to `X`'s batch
size (`S.repeat(X.size(0), 1, 1)`, giving `(X.size(0), seed_count,
embed_dim)`) and fed as the query of the internal MAB, with `X` as key/value.
`X.size(0)` on a 0-dimensional tensor is an error. -/
def pmaShapeForward (embed_dim seed_count : ℕ) (ff : List ℕ) (ln : Bool)
    (x : Shape) : Except ShapeErr Shape :=
  match x with
  | [] => .error .dim
  | b :: _ => mabShapeForward embed_dim ff ln [1 * b, seed_count * 1, embed_dim * 1] x

/-- Shape behaviour of `ISAB.forward(X)` (source lines 92-94): the inducing
point parameter `I = torch.randn(m_induce, embed_dim)` (a 2-D tensor, line 90)
is passed directly as the query of `mab1` with `X` as key/value, and the
result is the key/value of `mab2` with query `X`. -/
def isabShapeForward (m_induce embed_dim : ℕ) (ff : List ℕ) (ln : Bool)
    (x : Shape) : Except ShapeErr Shape :=
  match mabShapeForward embed_dim ff ln [m_induce, embed_dim] x with
  | .error e => .error e
  | .ok h => mabShapeForward embed_dim ff ln x h

/-- Shape rule of `Tensor.unsqueeze(i)`: inserts a size-1 dimension at
position `i`; valid when `i ≤ ndim`. -/
def unsqueezeShape (i : ℕ) (s : Shape) : Except ShapeErr Shape :=
  if i ≤ s.length then .ok (s.take i ++ 1 :: s.drop i) else .error .dim

/-- Shape rule of `Tensor.squeeze(i)`: removes dimension `i` when its size is
1, otherwise leaves the shape unchanged; `i` must index an existing dim. -/
def squeezeShape (i : ℕ) (s : Shape) : Except ShapeErr Shape :=
  match s.drop i with
  | [] => .error .dim
  | d :: rest => if d = 1 then .ok (s.take i ++ rest) else .ok s

/-- Shape behaviour of `IPAB.forward(X, Z)` (source lines 104-106):
`Z1 = mab1(Z.unsqueeze(1), X)`, then the result is
`(mab2(X, Z1), Z1.squeeze(1))`. -/
def ipabShapeForward (embed_dim : ℕ) (ff : List ℕ) (ln : Bool) (x z : Shape) :
    Except ShapeErr (Shape × Shape) :=
  match unsqueezeShape 1 z with
  | .error e => .error e
  | .ok zu =>
  match mabShapeForward embed_dim ff ln zu x with
  | .error e => .error e
  | .ok z1 =>
  match mabShapeForward embed_dim ff ln x z1 with
  | .error e => .error e
  | .ok out =>
  match squeezeShape 1 z1 with
  | .error e => .error e
  | .ok zs => .ok (out, zs)

/-- Iterated IPAB calls on a fixed input shape `x`, threading the latent
vector's shape `z` through, as in recurrent usage: each step feeds the
returned latent back in. -/
def ipabChain (embed_dim : ℕ) (ff : List ℕ) (ln : Bool) (x : Shape) :
    ℕ → Shape → Except ShapeErr Shape
  | 0, z => .ok z
  | Nat.succ k, z =>
    match ipabShapeForward embed_dim ff ln x z with
    | .error e => .error e
    | .ok (_, z2) => ipabChain embed_dim ff ln x k z2

/-- The learnable state and sub-modules of a `MAB`, value-level: tensors are
an abstract type `T`; the multihead attention sub-layer returns the pair of
attention output and (optional) attention weights, as
`nn.MultiheadAttention.forward` does; `layer_norm` is `none` when the module
was built with `layer_norm=False` (source line 50). -/
structure MABf (T W : Type) where
  attention : T → T → T → T × W
  layer_norm : Option (T → T)
  dropout : T → T
  feedforward : T → T

/-- `if self.layer_norm: t = self.layer_norm(t)`. -/
def MAB.maybeNorm {T : Type} : Option (T → T) → T → T
  | some lnf, t => lnf t
  | none, t => t

/-- `MAB.forward(X, Y)` translated line by line from source lines 55-69. -/
def MABf.forward {T W : Type} [Add T] (m : MABf T W) (X Y : T) : T :=
  let attention := (m.attention X Y Y).1
  let H := X + attention
  let H := match m.layer_norm with
    | some lnf => lnf H
    | none => H
  let H := m.dropout H
  let mab_out := H + m.feedforward H
  let mab_out := match m.layer_norm with
    | some lnf => lnf mab_out
    | none => mab_out
  m.dropout mab_out

/-- The forward pass described by the spec's numbered steps for MAB:
1. `A = MultiheadAttention(query=X, key=Y, value=Y)`, weights discarded;
2. `H = X + A`; layer norm if enabled; dropout;
3. `out = H + FeedForward(H)`; layer norm if enabled; dropout. -/
def MAB.specForward {T W : Type} [Add T] (m : MABf T W) (X Y : T) : T :=
  let A := (m.attention X Y Y).1
  let H := m.dropout (MAB.maybeNorm m.layer_norm (X + A))
  m.dropout (MAB.maybeNorm m.layer_norm (H + m.feedforward H))

/-- A generalized MAB forward pass in which the normalization applied after
the attention residual (`ln1`) and the one applied after the feed-forward
residual (`ln2`) are independent. -/
def MAB.forwardTwoNorms {T W : Type} [Add T] (att : T → T → T → T × W)
    (ln1 ln2 : Option (T → T)) (drop ffn : T → T) (X Y : T) : T :=
  let A := (att X Y Y).1
  let H := drop (MAB.maybeNorm ln1 (X + A))
  drop (MAB.maybeNorm ln2 (H + ffn H))

/-- The learnable state and sub-modules of a `PMA`, value-level: the seed
parameter `S`, the batch-size accessor `X.size(0)` and the broadcasting
`S.repeat(b, 1, 1)` are abstract. -/
structure PMAf (T W : Type) where
  mab : MABf T W
  S : T
  batchOf : T → ℕ
  repeatB : T → ℕ → T

/-- `PMA.forward(X)` from source lines 80-81:
`self.mab(self.S.repeat(X.size(0), 1, 1), X)`. -/
def PMAf.forward {T W : Type} [Add T] (m : PMAf T W) (X : T) : T :=
  MABf.forward m.mab (m.repeatB m.S (m.batchOf X)) X

/-- The state of a `LinearNet`, value-level: the affine layers are abstract
functions, as are the leaky-relu (with its fixed negative slope) and
dropout. -/
structure LinearNetM (T : Type) where
  net : List (T → T)
  leaky : T → T
  dropout : T → T
  final_linear : Bool

/-- The loop body of `LinearNet.forward` (source lines 20-28): for each layer
in order, apply it, then — unless this is the last layer and `final_linear`
is set (`i != len(self.net) - 1 or not self.final_linear`) — the leaky-relu,
then always dropout. -/
def lnGo {T : Type} (leaky drop : T → T) (fl : Bool) : List (T → T) → T → T
  | [], x => x
  | f :: rest, x =>
    let x1 := f x
    let x2 := if rest.isEmpty && fl then x1 else leaky x1
    lnGo leaky drop fl rest (drop x2)

/-- `LinearNet.forward`. -/
def LinearNet.forward {T : Type} (m : LinearNetM T) (x : T) : T :=
  lnGo m.leaky m.dropout m.final_linear m.net x

/-- Number of affine layers built by `LinearNet.__init__(layer_sizes)`
(source line 15: `range(len(layer_sizes) - 1)`). -/
def LinearNet.numLayers (layer_sizes : List ℕ) : ℕ := layer_sizes.length - 1

/-- Observable operations of a `LinearNet` forward pass. -/
inductive LNOp where
  | linear (i : ℕ)
  | activation
  | dropout
  deriving DecidableEq, Repr

/-- Trace semantics of the `i`-th affine layer: record its application. -/
def mkLin (i : ℕ) : List LNOp → List LNOp := fun t => t ++ [LNOp.linear i]

/-- Trace semantics of the leaky-relu: record its application. -/
def actT : List LNOp → List LNOp := fun t => t ++ [LNOp.activation]

/-- Trace semantics of dropout: record its application. -/
def dropT : List LNOp → List LNOp := fun t => t ++ [LNOp.dropout]

/-- The `n` affine layers of a `LinearNet`, instrumented to record their
applications. -/
def lnTraceLayers (n : ℕ) : List (List LNOp → List LNOp) :=
  (List.range n).map mkLin

/-- The sequence of operations `LinearNet.forward` applies for a net of `n`
affine layers with flag `final_linear = fl`, obtained by running the
translated forward pass on the instrumented layers. -/
def lnTrace (n : ℕ) (fl : Bool) : List LNOp :=
  LinearNet.forward ⟨lnTraceLayers n, actT, dropT, fl⟩ []

/-- The operation sequence the spec describes: each transform in order, and
after every transform except the last one when `final_linear` is set, the
nonlinearity, then dropout. -/
def lnSpecTrace (fl : Bool) (n : ℕ) : List LNOp :=
  (List.range n).flatMap fun i =>
    LNOp.linear i :: ((if fl ∧ i = n - 1 then [] else [LNOp.activation]) ++ [LNOp.dropout])

/-- Block form of the trace, indexed by the first remaining layer `k` and the
number of remaining layers. -/
def lnBlocks (fl : Bool) : ℕ → ℕ → List LNOp
  | _, 0 => []
  | k, Nat.succ n =>
    (LNOp.linear k :: ((if fl ∧ n = 0 then [] else [LNOp.activation]) ++ [LNOp.dropout]))
      ++ lnBlocks fl (k + 1) n

/-- `Attention.forward(Q, K, V)` translated from source lines 36-40 over real
matrices, for an injected `activation_function` that is an ordinary (total)
unary function on the score matrix: `d = Q.size(-1)`;
`logits = Q @ K.transpose(-2, -1) / sqrt(d)`;
`logits = activation_function(logits)`; result `logits @ V`. -/
noncomputable def Attention.forward {n d p e : ℕ}
    (activation_function : Matrix (Fin n) (Fin p) ℝ → Matrix (Fin n) (Fin p) ℝ)
    (Q : Matrix (Fin n) (Fin d) ℝ) (K : Matrix (Fin p) (Fin d) ℝ)
    (V : Matrix (Fin p) (Fin e) ℝ) : Matrix (Fin n) (Fin e) ℝ :=
  let logits := (Q * K.transpose).map (fun z => z / Real.sqrt d)
  let logits := activation_function logits
  logits * V

/-- Error raised by the injected activation inside `Attention.forward`. -/
inductive AttErr where
  /-- a call of `torch.softmax` without its required `dim` argument raises
  `TypeError`. -/
  | typeError
  deriving DecidableEq, Repr

/-- `Attention.forward(Q, K, V)` (source lines 36-40) for a fallible injected
`activation_function`: line 39 applies the injected function to the scores,
and an exception it raises propagates out of the forward pass. -/
noncomputable def Attention.forwardE {n d p e : ℕ}
    (activation_function :
      Matrix (Fin n) (Fin p) ℝ → Except AttErr (Matrix (Fin n) (Fin p) ℝ))
    (Q : Matrix (Fin n) (Fin d) ℝ) (K : Matrix (Fin p) (Fin d) ℝ)
    (V : Matrix (Fin p) (Fin e) ℝ) : Except AttErr (Matrix (Fin n) (Fin e) ℝ) :=
  let logits := (Q * K.transpose).map (fun z => z / Real.sqrt d)
  match activation_function logits with
  | .error er => .error er
  | .ok logits => .ok (logits * V)

/-- The code's default `activation_function = torch.softmax` (source line 32)
as it is actually invoked on line 39, with a single argument:
`torch.softmax(input, dim, ...)` has a required `dim` parameter, so the unary
call raises `TypeError` on every input and never computes a softmax. -/
def torchSoftmaxUnary {n p : ℕ} (_M : Matrix (Fin n) (Fin p) ℝ) :
    Except AttErr (Matrix (Fin n) (Fin p) ℝ) :=
  .error .typeError

/-- The spec formula for the attention primitive:
`normalize(Q·Kᵗ / sqrt(d)) · V` with `d` the trailing feature dimension. -/
noncomputable def attentionSpec {n d p e : ℕ}
    (normalize : Matrix (Fin n) (Fin p) ℝ → Matrix (Fin n) (Fin p) ℝ)
    (Q : Matrix (Fin n) (Fin d) ℝ) (K : Matrix (Fin p) (Fin d) ℝ)
    (V : Matrix (Fin p) (Fin e) ℝ) : Matrix (Fin n) (Fin e) ℝ :=
  normalize ((Q * K.transpose).map (fun z => z / Real.sqrt d)) * V

/-- Softmax over the last axis of a score matrix: the normalization the spec
attributes to the default.  In the code it is obtained only by injecting it
explicitly (e.g. a lambda applying `torch.softmax` with `dim=-1`); the
shipped default is the failing unary call `torchSoftmaxUnary`. -/
noncomputable def softmaxLastAxis {n p : ℕ} (M : Matrix (Fin n) (Fin p) ℝ) :
    Matrix (Fin n) (Fin p) ℝ :=
  Matrix.of fun i j => Real.exp (M i j) / ∑ k, Real.exp (M i k)

lemma bcRev_self : ∀ l : List ℕ, bcRev l l = .ok l := by
  intro l
  induction l with
  | nil => rfl
  | cons x xs ih => simp [bcRev, ih]

lemma broadcast_self (l : Shape) : broadcastShapes l l = .ok l := by
  simp [broadcastShapes, bcRev_self]

lemma lnShape_run : ∀ (rest : List ℕ) (w : ℕ) (l : List ℕ),
    linearNetShape (w :: rest) (l ++ [w]) = .ok (l ++ [rest.getLastD w]) := by
  intro rest
  induction rest with
  | nil => intro w l; simp [linearNetShape]
  | cons w2 rest ih =>
    intro w l
    have h1 : linearShape w w2 (l ++ [w]) = .ok (l ++ [w2]) := by
      simp [linearShape, List.getLast?_concat, List.dropLast_concat]
    simp [linearNetShape, h1, ih, List.getLast?_cons, List.getLastD_eq_getLast?]

lemma mabShape_ok (e : ℕ) (ff : List ℕ) (ln : Bool) (b q r : ℕ) :
    mabShapeForward e ff ln [b, q, e] [b, r, e] = .ok [b, q, e] := by
  have hmha : mhaOutShape e [b, q, e] [b, r, e] [b, r, e] = .ok [b, q, e] := by
    simp [mhaOutShape]
  have hlnet : linearNetShape (e :: (ff ++ [e])) [b, q, e] = .ok [b, q, e] := by
    have h := lnShape_run (ff ++ [e]) e [b, q]
    rw [List.getLastD_concat] at h
    simpa using h
  have hln : layerNormShape e [b, q, e] = .ok [b, q, e] := by
    simp [layerNormShape]
  cases ln <;>
    simp [mabShapeForward, hmha, hln, hlnet, broadcast_self, dropoutShape]

lemma mhaOutShape_ok_eq {e : ℕ} {q k v s : Shape}
    (h : mhaOutShape e q k v = .ok s) : s = q := by
  unfold mhaOutShape at h
  split_ifs at h
  all_goals simp_all

lemma layerNormShape_ok_eq {e : ℕ} {s t : Shape}
    (h : layerNormShape e s = .ok t) : t = s := by
  unfold layerNormShape at h
  split_ifs at h
  all_goals simp_all

lemma linearShape_ok {a b : ℕ} {s t : Shape}
    (h : linearShape a b s = .ok t) :
    s.getLast? = some a ∧ t = s.dropLast ++ [b] := by
  cases hls : s.getLast? with
  | none => simp only [linearShape, hls] at h; simp at h
  | some d =>
    simp only [linearShape, hls] at h
    split_ifs at h with hd
    subst hd
    simp only [Except.ok.injEq] at h
    exact ⟨rfl, h.symm⟩

lemma eq_dropLast_concat : ∀ (l : List ℕ) (z : ℕ),
    l.getLast? = some z → l = l.dropLast ++ [z] := by
  intro l
  induction l with
  | nil => intro z h; simp at h
  | cons x xs ih =>
    intro z h
    cases xs with
    | nil => simp_all
    | cons y ys =>
      rw [List.getLast?_cons_cons] at h
      exact congrArg (List.cons x) (ih z h)

lemma lnShape_cons : ∀ (ws : List ℕ) (w1 : ℕ) (s t : Shape),
    linearNetShape (w1 :: ws) s = .ok t →
    (ws = [] ∧ t = s) ∨
    (ws ≠ [] ∧ s.getLast? = some w1 ∧ t.dropLast = s.dropLast ∧
      t.getLast? = (w1 :: ws).getLast?) := by
  intro ws
  induction ws with
  | nil =>
    intro w1 s t h
    left
    refine ⟨rfl, ?_⟩
    simpa [linearNetShape] using h.symm
  | cons w2 rest ih =>
    intro w1 s t h
    right
    cases hstep : linearShape w1 w2 s with
    | error er => simp [linearNetShape, hstep] at h
    | ok s1 =>
      simp only [linearNetShape, hstep] at h
      obtain ⟨hlast, hs1⟩ := linearShape_ok hstep
      subst hs1
      rcases ih w2 _ t h with ⟨hrest, ht⟩ | ⟨_, _, hdrop, hlastt⟩
      · subst hrest
        subst ht
        refine ⟨by simp, hlast, by rw [List.dropLast_concat], ?_⟩
        simp [List.getLast?_concat]
      · refine ⟨by simp, hlast, ?_, ?_⟩
        · rw [hdrop, List.dropLast_concat]
        · rw [hlastt, List.getLast?_cons_cons]

lemma mabShape_ok_eq : ∀ (e : ℕ) (ff : List ℕ) (ln : Bool) (x y s : Shape),
    mabShapeForward e ff ln x y = .ok s → s = x := by
  intro e ff ln x y s h
  unfold mabShapeForward at h
  cases hmha : mhaOutShape e x y y with
  | error er => rw [hmha] at h; simp at h
  | ok a =>
    rw [hmha] at h
    rw [mhaOutShape_ok_eq hmha] at h
    simp only [broadcast_self, dropoutShape] at h
    have hnorm : ∀ t : Shape, (if ln then layerNormShape e x else Except.ok x) = .ok t → t = x := by
      intro t ht
      cases ln
      · simpa using ht.symm
      · exact layerNormShape_ok_eq (by simpa using ht)
    cases hl : (if ln then layerNormShape e x else Except.ok x) with
    | error er => rw [hl] at h; simp at h
    | ok h1 =>
      rw [hl] at h
      rw [hnorm h1 hl] at h
      cases hf : linearNetShape (e :: (ff ++ [e])) x with
      | error er => simp only [List.cons_append, List.nil_append] at h; rw [hf] at h; simp at h
      | ok f =>
        simp only [List.cons_append, List.nil_append] at h
        rw [hf] at h
        rcases lnShape_cons (ff ++ [e]) e x f hf with ⟨hemp, _⟩ | ⟨_, hxl, hdrop, hlastf⟩
        · exact absurd hemp (by simp)
        · have hfl : f.getLast? = some e := by
            rw [hlastf]
            rw [show e :: (ff ++ [e]) = (e :: ff) ++ [e] by simp]
            exact List.getLast?_concat _
          have hfx : f = x := by
            have hx2 : x = x.dropLast ++ [e] := eq_dropLast_concat _ _ hxl
            have hf2 : f = f.dropLast ++ [e] := eq_dropLast_concat _ _ hfl
            rw [hf2, hdrop]
            exact hx2.symm
          rw [hfx] at h
          simp only [broadcast_self] at h
          cases hl2 : (if ln then layerNormShape e x else Except.ok x) with
          | error er => rw [hl2] at h; simp at h
          | ok o1 =>
            rw [hl2] at h
            rw [hnorm o1 hl2] at h
            simpa using h.symm

lemma lnGo_range' : ∀ (n k : ℕ) (t : List LNOp) (fl : Bool),
    lnGo actT dropT fl ((List.range' k n).map mkLin) t = t ++ lnBlocks fl k n := by
  intro n
  induction n with
  | zero => intro k t fl; simp [lnGo, lnBlocks]
  | succ n ih =>
    intro k t fl
    rw [List.range'_succ, List.map_cons]
    show lnGo actT dropT fl ((List.range' (k + 1) n).map mkLin)
        (dropT (if ((List.range' (k + 1) n).map mkLin).isEmpty && fl then mkLin k t
          else actT (mkLin k t)))
      = t ++ lnBlocks fl k (n + 1)
    rw [ih (k + 1)]
    rw [lnBlocks]
    have hemp : ((List.range' (k + 1) n).map mkLin).isEmpty = decide (n = 0) := by
      cases n
      · rfl
      · rw [List.range'_succ]; rfl
    rw [hemp]
    by_cases hn : n = 0
    · subst hn
      cases fl <;> simp [mkLin, actT, dropT, lnBlocks]
    · rw [decide_eq_false hn]
      simp [mkLin, actT, dropT, hn]

lemma lnBlocks_flatMap : ∀ (n k : ℕ) (fl : Bool),
    lnBlocks fl k n = (List.range' k n).flatMap (fun i =>
      LNOp.linear i ::
        ((if fl ∧ i = k + n - 1 then [] else [LNOp.activation]) ++ [LNOp.dropout])) := by
  intro n
  induction n with
  | zero => intro k fl; simp [lnBlocks]
  | succ n ih =>
    intro k fl
    rw [List.range'_succ, List.flatMap_cons, lnBlocks, ih (k + 1) fl]
    have h1 : k + (n + 1) - 1 = k + n := by omega
    have h2 : k + 1 + n - 1 = k + n := by omega
    simp only [h1, h2]
    simp

lemma lnTrace_blocks (n : ℕ) (fl : Bool) : lnTrace n fl = lnBlocks fl 0 n := by
  have h := lnGo_range' n 0 [] fl
  rw [← List.range_eq_range'] at h
  simpa [lnTrace, LinearNet.forward, lnTraceLayers] using h

lemma lnBlocks_count_dropout : ∀ (n k : ℕ) (fl : Bool),
    (lnBlocks fl k n).count LNOp.dropout = n := by
  intro n
  induction n with
  | zero => intro k fl; simp [lnBlocks]
  | succ n ih =>
    intro k fl
    by_cases hc : fl = true ∧ n = 0
    · obtain ⟨hfl, hn⟩ := hc
      subst hfl
      subst hn
      simp [lnBlocks]
    · rw [lnBlocks]
      simp [hc, List.count_append, List.count_cons, ih]

lemma lnBlocks_getLast : ∀ (n k : ℕ) (fl : Bool), 1 ≤ n →
    (lnBlocks fl k n).getLast? = some LNOp.dropout := by
  intro n
  induction n with
  | zero => intro k fl h; omega
  | succ n ih =>
    intro k fl _
    cases n with
    | zero => cases fl <;> simp [lnBlocks]
    | succ m =>
      rw [lnBlocks, List.getLast?_append, ih (k + 1) fl (by omega)]
      rfl

/-- Claim C8: for every embedding dimension and positive head count with the
dimension divisible by the head count, constructing `MAB` while leaving
`ff_layers` at its default `None` raises an error during construction — the
`TypeError` from evaluating `[embed_dim] + None` on source line 52.  A
non-None `ff_layers` list is an undocumented precondition of MAB
construction. -/
theorem MAB.init_none_ff_errors (e h : ℕ) (hh : h ≠ 0) (hdvd : e % h = 0) :
    mabInit e h none = Except.error InitErr.typeError := by
  simp [mabInit, hh, hdvd]

/-- Witness for C8 at `embed_dim = 10`, `num_heads = 2`. -/
theorem MAB.init_none_ff_errors_witness :
    mabInit 10 2 none = Except.error InitErr.typeError :=
  MAB.init_none_ff_errors 10 2 (by decide) (by decide)

/-- Claim C1, counterexample: with the default `ff_layers = None`,
constructing `MAB(embed_dim=10, num_heads=2)` fails (with a `TypeError`, not
the assertion) even though 10 is divisible by 2, refuting both the claimed
equivalence "construction fails iff the embedding dimension is not divisible
by the head count" and the claimed success of `MAB(10, 2)`. -/
theorem MAB.init_default_ff_fails :
    mabInit 10 2 none = Except.error InitErr.typeError ∧ 10 % 2 = 0 :=
  ⟨rfl, rfl⟩

/-- Claim C1 as amended: once a (non-None) `ff_layers` list is supplied,
MAB construction succeeds iff the embedding dimension is divisible by the
(positive) head count, failing assertion-style exactly when it is not; in
particular `MAB(10, 3, ff_layers=[10])` fails via the assertion and
`MAB(10, 2, ff_layers=[10])` succeeds. -/
theorem MAB.init_ok_iff_heads_divide :
    (∀ (e h : ℕ) (ff : List ℕ), h ≠ 0 →
      (((∃ ws, mabInit e h (some ff) = Except.ok ws) ↔ e % h = 0) ∧
        (e % h ≠ 0 →
          mabInit e h (some ff) = Except.error InitErr.assertionError))) ∧
    mabInit 10 3 (some [10]) = Except.error InitErr.assertionError ∧
    mabInit 10 2 (some [10]) = Except.ok [10, 10, 10] := by
  refine ⟨?_, rfl, rfl⟩
  intro e h ff hh
  refine ⟨⟨?_, ?_⟩, ?_⟩
  · rintro ⟨ws, hws⟩
    by_contra hmod
    simp [mabInit, hh, hmod] at hws
  · intro hmod
    exact ⟨[e] ++ ff ++ [e], by simp [mabInit, hh, hmod]⟩
  · intro hmod
    simp [mabInit, hh, hmod]

/-- Witness for C1 (amended) at `embed_dim = 10`, `num_heads = 2`,
`ff_layers = [10]`. -/
theorem MAB.init_ok_iff_heads_divide_witness :
    ∃ ws, mabInit 10 2 (some [10]) = Except.ok ws :=
  ((MAB.init_ok_iff_heads_divide.1 10 2 [10] (by decide)).1).mpr (by decide)

/-- Claim C2, counterexample: on the default path the attention primitive
never returns `softmax(Q·Kᵗ / sqrt(d)) · V` — already at the 1×1 zero
matrices, the forward pass with the default activation (`torch.softmax`
invoked with a single argument, whose required `dim` parameter is missing)
raises `TypeError` instead of producing a value, refuting the claim's clause
that the normalization "defaults to softmax over the last axis". -/
theorem Attention.default_softmax_fails :
    Attention.forwardE torchSoftmaxUnary (0 : Matrix (Fin 1) (Fin 1) ℝ)
        (0 : Matrix (Fin 1) (Fin 1) ℝ) (0 : Matrix (Fin 1) (Fin 1) ℝ) =
      Except.error AttErr.typeError :=
  rfl

/-- Claim C2 as amended: for every query, key and value with matching
trailing feature dimension `d` and every injected (total) normalization,
`Attention.forward` returns `normalize(Q·Kᵗ / sqrt(d)) · V`, entrywise the
dot of normalized scores with `V`, and likewise when the normalization is
injected as a fallible function that succeeds; softmax over the last axis is
obtained by injecting it explicitly, whereas the shipped default — a unary
call of `torch.softmax` — raises `TypeError` on every input, so the default
path never computes a softmax. -/
theorem Attention.forward_spec_injected :
    (∀ (n d p e : ℕ)
      (act : Matrix (Fin n) (Fin p) ℝ → Matrix (Fin n) (Fin p) ℝ)
      (Q : Matrix (Fin n) (Fin d) ℝ) (K : Matrix (Fin p) (Fin d) ℝ)
      (V : Matrix (Fin p) (Fin e) ℝ),
      Attention.forward act Q K V = attentionSpec act Q K V ∧
      (∀ i j, Attention.forward act Q K V i j =
        ∑ kk, act ((Q * K.transpose).map (fun z => z / Real.sqrt d)) i kk * V kk j) ∧
      Attention.forwardE (fun M => Except.ok (act M)) Q K V =
        Except.ok (attentionSpec act Q K V)) ∧
    (∀ (n d p e : ℕ)
      (Q : Matrix (Fin n) (Fin d) ℝ) (K : Matrix (Fin p) (Fin d) ℝ)
      (V : Matrix (Fin p) (Fin e) ℝ),
      Attention.forward softmaxLastAxis Q K V =
        softmaxLastAxis ((Q * K.transpose).map (fun z => z / Real.sqrt d)) * V ∧
      Attention.forwardE torchSoftmaxUnary Q K V = Except.error AttErr.typeError) := by
  constructor
  · intro n d p e act Q K V
    refine ⟨rfl, ?_, rfl⟩
    intro i j
    exact Matrix.mul_apply
  · intro n d p e Q K V
    exact ⟨rfl, rfl⟩

/-- Claim C3 (evaluation of the code's actual behaviour): for every batched
(3-D) input shape, `ISAB.forward` fails inside `mab1`, because the inducing
points are passed as the raw 2-D parameter `I` — never broadcast across the
batch — and multihead attention rejects a 2-D (unbatched) query paired with
3-D (batched) key/value.  The spec instead requires the inducing points to be
broadcast (repeated) across the batch, as `PMA.forward` does for its seeds,
which would make the forward pass shape-preserving. -/
theorem ISAB.forward_batched_errors (m_induce e : ℕ) (ff : List ℕ) (ln : Bool)
    (b n d : ℕ) :
    isabShapeForward m_induce e ff ln [b, n, d] = Except.error ShapeErr.batching := by
  rfl

/-- Claim C4: `MAB.forward(X, Y)` computes exactly the spec's three steps —
attention with query `X`, key `Y`, value `Y` (weights discarded); attention
residual, optional layer norm, dropout; feed-forward residual, optional layer
norm, dropout — and whenever the shape-level forward pass succeeds, the
output shape equals `X`'s shape. -/
theorem MAB.forward_comp_and_shape :
    (∀ (T W : Type) [Add T] (m : MABf T W) (X Y : T),
        MABf.forward m X Y = MAB.specForward m X Y) ∧
    (∀ (e : ℕ) (ff : List ℕ) (ln : Bool) (x y s : Shape),
        mabShapeForward e ff ln x y = Except.ok s → s = x) := by
  constructor
  · intro T W _inst m X Y
    cases hln : m.layer_norm <;>
      simp [MABf.forward, MAB.specForward, MAB.maybeNorm, hln]
  · exact mabShape_ok_eq

/-- Witness for C4's shape guarantee at a concrete batched input. -/
theorem MAB.forward_shape_witness :
    mabShapeForward 10 [20] true [2, 3, 10] [2, 5, 10] = Except.ok [2, 3, 10] ∧
      ([2, 3, 10] : Shape) = [2, 3, 10] :=
  ⟨rfl, MAB.forward_comp_and_shape.2 10 [20] true [2, 3, 10] [2, 5, 10] [2, 3, 10] rfl⟩

/-- Claim C5: `PMA.forward` broadcasts the seed tensor to the input's batch
size and returns `MAB(seeds, X)`; at shape level, for any batched input
`[b, n, embed_dim]` the output shape is `[b, seed_count, embed_dim]` — the
set-size dimension equals the configured seed count, regardless of the input
set size `n`. -/
theorem PMA.forward_seed_count_shape :
    (∀ (T W : Type) [Add T] (m : PMAf T W) (X : T),
        PMAf.forward m X = MABf.forward m.mab (m.repeatB m.S (m.batchOf X)) X) ∧
    (∀ (e sc : ℕ) (ff : List ℕ) (ln : Bool) (b n : ℕ),
        pmaShapeForward e sc ff ln [b, n, e] = Except.ok [b, sc, e]) := by
  constructor
  · intro T W _inst m X
    rfl
  · intro e sc ff ln b n
    have h := mabShape_ok e ff ln b sc n
    simpa [pmaShapeForward] using h

lemma ipab_shape_ok (e : ℕ) (ff : List ℕ) (ln : Bool) (b n : ℕ) :
    ipabShapeForward e ff ln [b, n, e] [b, e] = Except.ok ([b, n, e], [b, e]) := by
  have h1 : unsqueezeShape 1 [b, e] = .ok [b, 1, e] := by
    simp [unsqueezeShape]
  have h2 := mabShape_ok e ff ln b 1 n
  have h3 := mabShape_ok e ff ln b n 1
  have h4 : squeezeShape 1 [b, 1, e] = .ok [b, e] := by
    simp [squeezeShape]
  simp [ipabShapeForward, h1, h2, h3, h4]

lemma ipab_chain_ok (e : ℕ) (ff : List ℕ) (ln : Bool) (b n : ℕ) :
    ∀ k, ipabChain e ff ln [b, n, e] k [b, e] = Except.ok [b, e] := by
  intro k
  induction k with
  | zero => rfl
  | succ k ih => simp [ipabChain, ipab_shape_ok, ih]

/-- Claim C6: for every batched input of shape `[b, n, embed_dim]` and latent
vector of shape `[b, embed_dim]`, `IPAB.forward(X, Z)` returns a pair whose
first component has `X`'s shape and whose second component has `Z`'s shape;
consequently chaining IPAB any number of times with the same `X` and the
evolving `Z` never produces an error. -/
theorem IPAB.forward_shape_chain :
    (∀ (e : ℕ) (ff : List ℕ) (ln : Bool) (b n : ℕ),
        ipabShapeForward e ff ln [b, n, e] [b, e] = Except.ok ([b, n, e], [b, e])) ∧
    (∀ (e : ℕ) (ff : List ℕ) (ln : Bool) (b n k : ℕ),
        ipabChain e ff ln [b, n, e] k [b, e] = Except.ok [b, e]) :=
  ⟨ipab_shape_ok, fun e ff ln b n k => ipab_chain_ok e ff ln b n k⟩

/-- Claim C7: the sequence of operations `LinearNet.forward` performs is each
affine transform in order, each followed by the leaky-rectifying nonlinearity
— except the last transform when `final_linear` is set — and dropout; in
particular for widths `[4, 8, 1]` (two transforms) with `final_linear = true`
no activation follows the last transform. -/
theorem LinearNet.trace_spec :
    (∀ (n : ℕ) (fl : Bool), lnTrace n fl = lnSpecTrace fl n) ∧
    lnTrace (LinearNet.numLayers [4, 8, 1]) true =
      [LNOp.linear 0, LNOp.activation, LNOp.dropout, LNOp.linear 1, LNOp.dropout] := by
  constructor
  · intro n fl
    rw [lnTrace_blocks, lnBlocks_flatMap, lnSpecTrace, List.range_eq_range']
    simp
  · rfl

/-- Claim C9: for every net of at least one affine layer and either
`final_linear` setting, `LinearNet.forward` applies dropout after every
affine transform — exactly one dropout per transform, and the very last
operation of the pass is a dropout, so the final transform is followed by
dropout even when `final_linear` suppresses its activation. -/
theorem LinearNet.dropout_after_every_layer (n : ℕ) (fl : Bool) (hn : 1 ≤ n) :
    (lnTrace n fl).count LNOp.dropout = n ∧
      (lnTrace n fl).getLast? = some LNOp.dropout := by
  rw [lnTrace_blocks]
  exact ⟨lnBlocks_count_dropout n 0 fl, lnBlocks_getLast n 0 fl hn⟩

/-- Witness for C9 at two layers (widths `[4, 8, 1]`) with
`final_linear = true`. -/
theorem LinearNet.dropout_after_every_layer_witness :
    (lnTrace 2 true).count LNOp.dropout = 2 ∧
      (lnTrace 2 true).getLast? = some LNOp.dropout :=
  LinearNet.dropout_after_every_layer 2 true (by decide)

/-- Claim C10: in `MAB.forward` the normalization applied after the attention
residual and the one applied after the feed-forward residual are the same
module — the single `self.layer_norm` attribute created on source line 50 —
i.e. the forward pass instantiates both normalization sites of the
generalized two-norm forward pass with that one shared module. -/
theorem MAB.shared_layer_norm :
    ∀ (T W : Type) [Add T] (m : MABf T W) (X Y : T),
      MABf.forward m X Y =
        MAB.forwardTwoNorms m.attention m.layer_norm m.layer_norm m.dropout
          m.feedforward X Y := by
  intro T W _inst m X Y
  cases hln : m.layer_norm <;>
    simp [MABf.forward, MAB.forwardTwoNorms, MAB.maybeNorm, hln]
